import Mathlib

/-!
Verification of the concurrency coordination layer of the `gofunctional`
repository (package `functional`): the Generator/Emitter rendezvous
(`src/functional/generators.go`) and the fan-out coordinator `MultiConsume`
with its per-consumer `splitStream` (`src/unnamed/part_000`).

Both protocols communicate over unbuffered Go channels in a strictly
alternating two-party rendezvous, so every observable interaction is
deterministic: each operation of one party blocks until the unique matching
operation of the other party happens.  The embedding therefore models each
protocol as a deterministic step function over an explicit protocol state.
A `none` result of an operation means the corresponding Go call blocks
forever (no matching channel operation will ever occur); `some` carries the
value the Go call returns together with the successor state.

The producer routine handed to `NewGenerator` and the consumer routines
handed to `MultiConsume` are arbitrary user code.  They are abstracted as
state machines recording exactly what the protocol can observe of them:
at which handshake points they re-enter the protocol, which values they
write into the emit slot, and whether they return or diverge.
-/

namespace Functional

/- ===================================================================
   Generator / Emitter  (src/functional/generators.go)

   type regularGenerator struct { ptrCh chan interface{}; doneCh chan bool }

   func (g *regularGenerator) Next(ptr interface{}) bool {
     if g.ptrCh == nil { return false }
     g.ptrCh <- ptr
     return g.cleanupIfDone()
   }
   func (g *regularGenerator) Close() error { g.Next(nil); return nil }
   func (g *regularGenerator) EmitPtr() interface{} {
     g.doneCh <- false
     return <-g.ptrCh
   }
   func (g *regularGenerator) cleanupIfDone() bool {
     if <-g.doneCh { close(...); g.ptrCh = nil; g.doneCh = nil; return false }
     return true
   }
   func genFuncWrapper(f func(e Emitter), g *regularGenerator) {
     f(g)
     g.doneCh <- true
   }
   func NewGenerator(f func(e Emitter)) Generator {
     g := &regularGenerator{make(chan interface{}), make(chan bool)}
     go genFuncWrapper(f, g)
     g.cleanupIfDone()
     return g
   }

   Protocol invariant (both channels unbuffered): whenever the generator is
   open and no caller operation is in progress, the producer goroutine is
   blocked at `<-g.ptrCh` inside `EmitPtr` having already sent `false` on
   `doneCh`.  A caller operation (`Next`/`Close`) hands the slot pointer
   (or nil) to that pending receive and then waits on `doneCh` for the
   producer either to call `EmitPtr` again (`false`: one more value was
   written through the slot), or to return from `f` (`true` from
   `genFuncWrapper`: cleanup), or to do neither (the caller blocks forever).
   =================================================================== -/

/-- What a producer routine does after its pending `EmitPtr` call returned a
non-nil slot, observed at the handshake: it writes value `v` through the slot
and calls `EmitPtr` again (`emit`), or it returns from `f` without emitting
again (`ret`), or it never reaches `doneCh` again (`hang`). -/
inductive PAct (α P : Type) where
  | emit (v : α) (next : P)
  | ret
  | hang
deriving DecidableEq

/-- What a producer routine does after its pending `EmitPtr` call returned
nil (the generator was closed): it returns promptly without calling `EmitPtr`
again (`ret`, the behavior the `Emitter` documentation demands), or it never
reaches the handshake again (`hang`), or — against the documented contract —
it calls `EmitPtr` once more (`emitAgain`). -/
inductive NilAct (P : Type) where
  | ret
  | hang
  | emitAgain (next : P)
deriving DecidableEq

/-- Abstraction of a producer routine `f : func(e Emitter)` as a state
machine over internal states `P`: `onSlot p` is its behavior when its pending
`EmitPtr` returns a non-nil slot in state `p`, `onNil p` its behavior when
the pending `EmitPtr` returns nil. -/
structure ProducerM (α P : Type) where
  onSlot : P → PAct α P
  onNil : P → NilAct P

/-- State of a `regularGenerator` between caller operations: `closed` means
`ptrCh`/`doneCh` are nil (cleanup ran); `opened p` means the channels are
live and the producer goroutine is blocked at `<-g.ptrCh` inside `EmitPtr`
with internal state `p`. -/
inductive GenState (P : Type) where
  | closed
  | opened (p : P)
deriving DecidableEq

/-- How the producer routine `f` starts, as observed by `NewGenerator`'s
initial `cleanupIfDone`: it calls `EmitPtr` (sending `false` on `doneCh`) and
blocks at `<-g.ptrCh` in state `p`; or it returns without ever calling
`EmitPtr` (the wrapper sends `true`); or it never reaches either handshake. -/
inductive PStart (P : Type) where
  | emits (p : P)
  | returns
  | hangs
deriving DecidableEq

variable {α P : Type}

/-- `NewGenerator`: spawn `genFuncWrapper(f, g)`, then `g.cleanupIfDone()`.
The constructor blocks on `<-g.doneCh` until the producer's first handshake:
`false` (first `EmitPtr` call) leaves the generator open, `true` (producer
returned without emitting) runs cleanup, and a producer that reaches neither
blocks the constructor forever (`none`). -/
def NewGenerator : PStart P → Option (GenState P)
  | .emits p => some (.opened p)
  | .returns => some .closed
  | .hangs => none

/-- `regularGenerator.Next(ptr)`: on a closed generator (`ptrCh == nil`)
return false at once.  Otherwise `g.ptrCh <- ptr` hands the slot to the
producer's pending `EmitPtr`, and `cleanupIfDone` waits on `doneCh`:
`false` means the producer wrote a value through the slot and called
`EmitPtr` again (Next returns true with the value), `true` means the
producer returned (cleanup runs, Next returns false), and a producer that
reaches neither handshake blocks the call forever (`none`).
The returned `Option α` is Next's bool result fused with the slot content:
`some v` = `true` with `v` stored at `ptr`, `none` = `false`. -/
def Next (M : ProducerM α P) : GenState P → Option (Option α × GenState P)
  | .closed => some (none, .closed)
  | .opened p =>
    match M.onSlot p with
    | .emit v next => some (some v, .opened next)
    | .ret => some (none, .closed)
    | .hang => none

/-- `regularGenerator.Close()` = `g.Next(nil)`: a no-op on a closed
generator; otherwise it hands nil to the producer's pending `EmitPtr` and
waits on `doneCh`.  A producer that returns promptly (`NilAct.ret`) triggers
the wrapper's `doneCh <- true` and cleanup; one that never reaches the
handshake again leaves `Close` blocked forever (`none`); one that calls
`EmitPtr` again despite the nil slot sends `false`, so `Close` returns with
the generator still open. -/
def Close (M : ProducerM α P) : GenState P → Option (GenState P)
  | .closed => some .closed
  | .opened p =>
    match M.onNil p with
    | .ret => some .closed
    | .hang => none
    | .emitAgain next => some (.opened next)

/-- `n` successive `Next` calls, collecting each call's result (`some v` =
returned true with value `v`, `none` = returned false).  The whole run is
`none` if any call blocks forever. -/
def nextN (M : ProducerM α P) : ℕ → GenState P → Option (List (Option α) × GenState P)
  | 0, s => some ([], s)
  | n + 1, s =>
    match Next M s with
    | none => none
    | some (r, s1) =>
      match nextN M n s1 with
      | none => none
      | some (rs, s2) => some (r :: rs, s2)

/-- Producer routine of `TestNewFiniteGenerator` shape: it holds a list of
values still to emit; with a pending non-nil slot it writes the head and
calls `EmitPtr` again, with an empty list it returns; handed nil it returns
immediately without calling `EmitPtr` again. -/
def listProducer (α : Type) : ProducerM α (List α) where
  onSlot
    | [] => .ret
    | v :: rest => .emit v rest
  onNil _ := .ret

/-- The Fibonacci producer routine of `TestNewInfiniteGenerator`: internal
state `(a, b)`; on each non-nil slot it writes `a` and continues with
`(b, a + b)`; handed nil it exits its loop and returns immediately, never
calling `EmitPtr` again. -/
def fibProducer : ProducerM Int (Int × Int) where
  onSlot := fun (a, b) => .emit a (b, a + b)
  onNil _ := .ret

/-- A producer that emits 0 forever but, when handed the nil slot, goes off
computing and never returns to the handshake (neither returns from `f` nor
calls `EmitPtr` again). -/
def spinningProducer : ProducerM Int Unit where
  onSlot _ := .emit 0 ()
  onNil _ := .hang

theorem nextN_closed (M : ProducerM α P) :
    ∀ n : ℕ, nextN M n .closed = some (List.replicate n none, .closed) := by
  intro n
  induction n with
  | zero => rfl
  | succ n ih => simp [nextN, Next, ih, List.replicate_succ]

example : nextN fibProducer 7 (.opened (0, 1)) =
    some ([some 0, some 1, some 1, some 2, some 3, some 5, some 8],
      .opened (13, 21)) := by rfl

example : nextN (listProducer Int) 5 (.opened [1, 2, 5]) =
    some ([some 1, some 2, some 5, none, none], .closed) := by rfl

/- ===================================================================
   Upstream Streams used by the MultiConsume test scenarios
   (src/functional/functional.go).

   A Go `Stream` is `Next(ptr) bool`, writing the next value at `ptr` when
   it returns true.  A sequential stream is embedded as a state type `σ`
   with a step function `σ → Option α × σ`: `(some v, s1)` = Next returned
   true having stored `v`, `(none, s1)` = Next returned false (the state
   may still have advanced, exactly as the Go receiver may have).
   =================================================================== -/

/-- `type count struct { start int; step int }` — the state behind `Count()`
and `CountFrom(start, step)`. -/
structure count where
  start : Int
  step : Int
deriving DecidableEq

/-- `func (c *count) Next(ptr) bool { *p = c.start; c.start += c.step;
return true }` — always true, never exhausted. -/
def count.Next (c : count) : Option Int × count :=
  (some c.start, ⟨c.start + c.step, c.step⟩)

/-- `Count()` returns the infinite stream of integers beginning at 0. -/
def Count : count := ⟨0, 1⟩

/-- `CountFrom(start, step)`. -/
def CountFrom (start step : Int) : count := ⟨start, step⟩

/-- `type sliceStream struct { stream Stream; start int; end int; index int }`
(the Go field `end` is named `stop` here because `end` is reserved). -/
structure sliceStream (σ : Type) where
  stream : σ
  start : Int
  stop : Int
  index : Int

/-- The loop body of `sliceStream.Next`:

  for (s.end < 0 || s.index < s.end) && s.stream.Next(ptr) {
    if s.index >= s.start { s.index++; return true }
    s.index++
  }
  return false

The loop iterates only while `index < start` (skipping prefix elements), so
it runs at most `(start - index).toNat` more times; that number is passed as
the structural recursion budget `n` — the `n = 0` branch inside the skip case
is unreachable for the exact budget and mirrors the loop exit. -/
def sliceLoop {σ : Type} (inner : σ → Option α × σ) (s0 e : Int) :
    ℕ → σ → Int → Option α × sliceStream σ
  | n, st, i =>
    if e < 0 ∨ i < e then
      match inner st with
      | (some v, st1) =>
        if s0 ≤ i then (some v, ⟨st1, s0, e, i + 1⟩)
        else
          match n with
          | 0 => (none, ⟨st1, s0, e, i + 1⟩)
          | m + 1 => sliceLoop inner s0 e m st1 (i + 1)
      | (none, st1) => (none, ⟨st1, s0, e, i⟩)
    else (none, ⟨st, s0, e, i⟩)

/-- `sliceStream.Next` over an inner stream with step function `inner`. -/
def sliceStream.Next {σ : Type} (inner : σ → Option α × σ) (s : sliceStream σ) :
    Option α × sliceStream σ :=
  sliceLoop inner s.start s.stop (s.start - s.index).toNat s.stream s.index

/-- `Slice(s, start, end)` returns `&sliceStream{s, start, end, 0}`. -/
def Slice {σ : Type} (s : σ) (start stop : Int) : sliceStream σ :=
  ⟨s, start, stop, 0⟩

example :
    (sliceStream.Next count.Next (Slice Count 0 2)) =
      (some 0, ⟨⟨1, 1⟩, 0, 2, 1⟩) := by rfl

example :
    (sliceStream.Next count.Next ⟨⟨2, 1⟩, 0, 2, 2⟩) =
      (none, ⟨⟨2, 1⟩, 0, 2, 2⟩) := by rfl

example :
    (sliceStream.Next count.Next (Slice Count 2 4)) =
      (some 2, ⟨⟨3, 1⟩, 2, 4, 3⟩) := by rfl

/- ===================================================================
   MultiConsume and splitStream  (src/unnamed/part_000)

   type splitStream struct {
     ptrCh chan interface{}
     nextReturnCh chan bool
     ptr interface{}
   }
   func (s *splitStream) Next(ptr interface{}) bool {
     s.ptrCh <- ptr
     return <-s.nextReturnCh
   }
   func (s *splitStream) currentPtr() interface{} { return s.ptr }
   func (s *splitStream) nextReturn(returnValue bool) bool {
     if s.nextReturnCh == nil { return false }
     s.nextReturnCh <- returnValue
     return s.cleanupIfDone()
   }
   func (s *splitStream) cleanupIfDone() bool {
     s.ptr = <-s.ptrCh
     if s.ptr == nil { close(...); s.ptrCh = nil; s.nextReturnCh = nil; return false }
     return true
   }
   func consumerWrapper(s *splitStream, c Consumer) {
     c.Consume(s)
     s.ptrCh <- nil
   }
   func MultiConsume(s Stream, ptr interface{}, copier Copier, consumers ...Consumer) {
     if copier == nil { copier = assignCopier }
     streams := make([]*splitStream, len(consumers))
     stillConsuming := false
     for i := range streams {
       streams[i] = &splitStream{ptrCh: ..., nextReturnCh: ...}
       go consumerWrapper(streams[i], consumers[i])
       if streams[i].cleanupIfDone() { stillConsuming = true }
     }
     for stillConsuming && s.Next(ptr) {
       stillConsuming = false
       for i := range streams {
         p := streams[i].currentPtr()
         if p != nil { copier(ptr, p) }
         if streams[i].nextReturn(true) { stillConsuming = true }
       }
     }
     for stillConsuming {
       stillConsuming = false
       for i := range streams {
         if streams[i].nextReturn(false) { stillConsuming = true }
       }
     }
   }

   Each splitStream's channels are unbuffered and used only by the pair
   (coordinator goroutine, that consumer's goroutine), again in strict
   alternation: between coordinator operations an *active* consumer task is
   blocked at `<-s.nextReturnCh` inside `splitStream.Next`, its destination
   pointer already stored in `s.ptr` by the coordinator's last
   `cleanupIfDone`.  An *inactive* split has had its `Consume` call return:
   `consumerWrapper` sent the nil sentinel, `cleanupIfDone` received it,
   closed both channels and set them nil, so every later `nextReturn` on it
   returns false immediately.  The machine below records the reply a
   consumer's pending `Next` call gets, fusing `nextReturn(true)` with the
   preceding `copier(ptr, p)` into the delivered value `some v`, and
   `nextReturn(false)` into the reply `none`; `copier = nil` (the default
   `assignCopier`, plain assignment) is the case all claims use, so a
   delivered value is simply the pulled value itself.
   =================================================================== -/

/-- Abstraction of a `Consumer` routine as a state machine over internal
states `C`, observed at its `splitStream` handshake points: in state `c`,
`callsNext c = true` means the routine's next interaction is a
`splitStream.Next` call (it sends its destination pointer and blocks for the
reply), `callsNext c = false` means `Consume` returns, upon which
`consumerWrapper` unconditionally sends the nil sentinel.  `recv c r`
is the state after its pending `Next` returns: `r = some v` for a
`nextReturn(true)` whose value `v` was copied into the destination,
`r = none` for a `nextReturn(false)`. -/
structure ConsumerM (α C : Type) where
  callsNext : C → Bool
  recv : C → Option α → C

/-- State of one `splitStream` as the coordinator sees it: `active c` —
channels live, the consumer task (internal state `c`) is blocked inside
`splitStream.Next` awaiting its reply and its destination is stored in
`s.ptr`; `inactive c` — `Consume` returned in state `c`, the nil sentinel
was received and both channels are closed and nil. -/
inductive SplitS (C : Type) where
  | active (c : C)
  | inactive (c : C)
deriving DecidableEq

variable {C S : Type}

/-- `go consumerWrapper(streams[i], consumers[i])` followed by the setup
`streams[i].cleanupIfDone()`: the coordinator blocks until the consumer's
first handshake — either its first `splitStream.Next` call (split becomes
active) or the nil sentinel after an immediate return of `Consume` (split
becomes inactive). -/
def consumerWrapper (M : ConsumerM α C) (c : C) : SplitS C :=
  if M.callsNext c then .active c else .inactive c

/-- `streams[i].nextReturn(returnValue)` preceded, for `returnValue = true`,
by `copier(ptr, p)`: on an inactive split (`nextReturnCh == nil`) this
returns false and changes nothing; on an active split it answers the pending
`Next` with `r` and then `cleanupIfDone` blocks until the consumer's next
handshake — a further `Next` call (still active) or the nil sentinel after
`Consume` returned (now inactive). -/
def nextReturn (M : ConsumerM α C) (r : Option α) : SplitS C → SplitS C
  | .inactive c => .inactive c
  | .active c =>
    let c1 := M.recv c r
    if M.callsNext c1 then .active c1 else .inactive c1

/-- Whether `nextReturn` on this split would report "still consuming". -/
def isActive : SplitS C → Bool
  | .active _ => true
  | .inactive _ => false

/-- `stillConsuming` after a pass over all splits. -/
def anyActive (ss : List (SplitS C)) : Bool := ss.any isActive

/-- One inner `for i := range streams` pass delivering reply `r` to every
split (inactive ones are unaffected, exactly as in the source). -/
def deliverAll (M : ConsumerM α C) (r : Option α) (ss : List (SplitS C)) :
    List (SplitS C) :=
  ss.map (nextReturn M r)

/-- The second (`for stillConsuming`) loop of `MultiConsume`: upstream is
exhausted, every pass answers each still-active split with
`nextReturn(false)` until no split is active.  The upstream stream is never
touched here.  `fuel` bounds the number of passes: `none` means the loop did
not finish within `fuel` passes (with unbounded consumers it may genuinely
run forever). -/
def drainLoop (M : ConsumerM α C) : ℕ → S → List (SplitS C) →
    Option (S × List (SplitS C))
  | 0, _, _ => none
  | fuel + 1, up, ss =>
    if anyActive ss then drainLoop M fuel up (deliverAll M none ss)
    else some (up, ss)

/-- The first (`for stillConsuming && s.Next(ptr)`) loop of `MultiConsume`:
while some split is active, pull one element from upstream; on success
deliver it to every still-active split, on exhaustion fall through to the
drain loop.  `stillConsuming` is checked before `s.Next`, so upstream is not
pulled once no split is active. -/
def mainLoop (M : ConsumerM α C) (upNext : S → Option α × S) :
    ℕ → S → List (SplitS C) → Option (S × List (SplitS C))
  | 0, _, _ => none
  | fuel + 1, up, ss =>
    if anyActive ss then
      match upNext up with
      | (some v, up1) => mainLoop M upNext fuel up1 (deliverAll M (some v) ss)
      | (none, up1) => drainLoop M fuel up1 ss
    else some (up, ss)

/-- `MultiConsume(s, ptr, nil, consumers...)`: create one split per consumer
(each consumer task running to its first handshake), then the two loops.
The result is `some` of the final upstream state and the final splits — all
inactive, each holding the state in which its `Consume` returned — or `none`
if `MultiConsume` blocks/runs beyond `fuel` rounds. -/
def MultiConsume (M : ConsumerM α C) (upNext : S → Option α × S) (fuel : ℕ)
    (up : S) (cs : List C) : Option (S × List (SplitS C)) :=
  mainLoop M upNext fuel up (cs.map (consumerWrapper M))

/- ===================================================================
   Concrete consumer routines from the tests (src/functional south of
   MultiConsume: consumers_test.go / part_000 test half).
   =================================================================== -/

/-- A consumer that reads its whole stream, appending every value to an
accumulator (`AppendValues(s, &results)` as a Consumer): state
`(sawEnd, acc)`; it keeps calling `Next` until the first false reply, then
returns. -/
def collectConsumer (α : Type) : ConsumerM α (Bool × List α) where
  callsNext c := !c.1
  recv c r :=
    match r with
    | some v => (c.1, c.2 ++ [v])
    | none => (true, c.2)

/-- `filterConsumer` with the even/odd filters of `TestNormal`:
`AppendValues(Filter(f, s), &fc.results)` — the filter pulls one value per
`splitStream.Next` call, keeping `v` iff `v % 2 == 0` (`isEven = true`) or
`v % 2 == 1` (`isEven = false`), until the first false reply, then `Consume`
returns. -/
structure EOState where
  isEven : Bool
  sawEnd : Bool
  acc : List Int
deriving DecidableEq

def evenOddConsumer : ConsumerM Int EOState where
  callsNext c := !c.sawEnd
  recv c r :=
    match r with
    | some v =>
      if (if c.isEven then v % 2 == 0 else v % 2 == 1)
      then { c with acc := c.acc ++ [v] } else c
    | none => { c with sawEnd := true }

/-- Consumer states of `TestConsumersEndEarly`: `nn` is `noNextConsumer`
(its `Consume` returns immediately, never calling `Next`);
`bounded isEven cnt sawEnd acc` is
`ModifyConsumerStream(even/odd filterConsumer, Slice(s, 0, 5))` — the
`Slice(s, 0, 5)` wrapper pulls the underlying splitStream exactly while
`cnt < 5` (after the 5th value its `Next` returns false without touching the
splitStream, so `Consume` returns), and a false reply (`sawEnd`) also ends
it. -/
inductive C4C where
  | nn
  | bounded (isEven : Bool) (cnt : ℕ) (sawEnd : Bool) (acc : List Int)
deriving DecidableEq

def c4Machine : ConsumerM Int C4C where
  callsNext
    | .nn => false
    | .bounded _ cnt sawEnd _ => !sawEnd && decide (cnt < 5)
  recv
    | .nn, _ => .nn
    | .bounded e cnt sawEnd acc, some v =>
      .bounded e (cnt + 1) sawEnd
        (if (if e then v % 2 == 0 else v % 2 == 1) then acc ++ [v] else acc)
    | .bounded e cnt _ acc, none => .bounded e cnt true acc

/-- `readPastEndConsumer` of `TestReadPastEndConsumer`: first
`for s.Next(&x) {}` until the first false reply (`atEnd`), then exactly 10
further `s.Next(&x)` calls regardless of their results, then `Consume`
returns.  `extraReplies` records the boolean result of each of the 10 extra
calls (true iff the reply carried a value); it is pure observation and does
not influence the control flow. -/
structure RPEState where
  atEnd : Bool
  extra : ℕ
  extraReplies : List Bool
deriving DecidableEq

def readPastEndConsumer : ConsumerM Int RPEState where
  callsNext c := !c.atEnd || decide (c.extra < 10)
  recv c r :=
    if !c.atEnd then
      match r with
      | some _ => c
      | none => { c with atEnd := true }
    else { c with extra := c.extra + 1, extraReplies := c.extraReplies ++ [r.isSome] }

example :
    MultiConsume evenOddConsumer (sliceStream.Next count.Next) 20 (Slice Count 0 5)
        [⟨true, false, []⟩, ⟨false, false, []⟩] =
      some (⟨⟨5, 1⟩, 0, 5, 5⟩,
        [.inactive ⟨true, true, [0, 2, 4]⟩, .inactive ⟨false, true, [1, 3]⟩]) := by
  rfl

example :
    MultiConsume c4Machine count.Next 10 Count
        [C4C.nn, C4C.bounded true 0 false [], C4C.bounded false 0 false []] =
      some (⟨5, 1⟩,
        [.inactive .nn,
         .inactive (.bounded true 5 false [0, 2, 4]),
         .inactive (.bounded false 5 false [1, 3])]) := by
  rfl

example :
    MultiConsume c4Machine count.Next 5 (CountFrom 7 1) [C4C.nn] =
      some (CountFrom 7 1, [.inactive .nn]) := by
  rfl

example :
    MultiConsume readPastEndConsumer (sliceStream.Next count.Next) 40 (Slice Count 0 5)
        [⟨false, 0, []⟩, ⟨false, 0, []⟩] =
      some (⟨⟨5, 1⟩, 0, 5, 5⟩,
        [.inactive ⟨true, 10, List.replicate 10 false⟩,
         .inactive ⟨true, 10, List.replicate 10 false⟩]) := by
  rfl

example :
    MultiConsume (collectConsumer Int) (sliceStream.Next count.Next) 20 (Slice Count 0 5)
        [(false, [])] =
      some (⟨⟨5, 1⟩, 0, 5, 5⟩, [.inactive (true, [0, 1, 2, 3, 4])]) := by
  rfl

/- ===================================================================
   General lemmas about the coordinator loops.
   =================================================================== -/

/-- `Emits upNext up vs up1`: the upstream stream, pulled repeatedly from
state `up`, supplies exactly the values `vs` (in order) and then reports
exhaustion, leaving it in state `up1`. -/
inductive Emits (upNext : S → Option α × S) : S → List α → S → Prop where
  | nil {up up1 : S} (h : upNext up = (none, up1)) : Emits upNext up [] up1
  | cons {up up1 up2 : S} {v : α} {vs : List α} (h : upNext up = (some v, up1))
      (t : Emits upNext up1 vs up2) : Emits upNext up (v :: vs) up2

theorem drainLoop_of_inactive (M : ConsumerM α C) (fuel : ℕ) (up : S)
    (ss : List (SplitS C)) (h : anyActive ss = false) :
    drainLoop M (fuel + 1) up ss = some (up, ss) := by
  simp [drainLoop, h]

theorem deliverAll_collect (v : α) (accs : List (List α)) :
    deliverAll (collectConsumer α) (some v)
        (accs.map fun a => SplitS.active (false, a)) =
      (accs.map fun a => a ++ [v]).map fun a => SplitS.active (false, a) := by
  induction accs with
  | nil => rfl
  | cons a as _ => simp [deliverAll, nextReturn, collectConsumer]

theorem deliverAll_collect_none (accs : List (List α)) :
    deliverAll (collectConsumer α) none
        (accs.map fun a => SplitS.active (false, a)) =
      accs.map fun a => SplitS.inactive (true, a) := by
  induction accs with
  | nil => rfl
  | cons a as _ => simp [deliverAll, nextReturn, collectConsumer]

theorem anyActive_inactive_map {β : Type} (f : β → C) (l : List β) :
    anyActive (l.map fun b => SplitS.inactive (f b)) = false := by
  induction l with
  | nil => rfl
  | cons b bs _ => simp [anyActive, isActive]

theorem drainLoop_collect (fuel : ℕ) (up up1 : S) (a : List α)
    (as : List (List α)) (ss1 : List (SplitS (Bool × List α)))
    (h : drainLoop (collectConsumer α) fuel up
        ((a :: as).map fun x => SplitS.active (false, x)) = some (up1, ss1)) :
    up1 = up ∧ ss1 = (a :: as).map fun x => SplitS.inactive (true, x) := by
  match fuel with
  | 0 => simp [drainLoop] at h
  | fuel + 1 =>
    rw [drainLoop] at h
    simp only [anyActive, List.map_cons, List.any_cons, isActive, Bool.true_or,
      if_true] at h
    have hd := deliverAll_collect_none (α := α) (a :: as)
    simp only [List.map_cons] at hd
    rw [hd] at h
    match fuel with
    | 0 => simp [drainLoop] at h
    | fuel + 1 =>
      have hin : anyActive
          (SplitS.inactive ((true : Bool), a) ::
            (as.map fun x => SplitS.inactive (true, x))) = false := by
        have := anyActive_inactive_map (C := Bool × List α)
          (fun x => ((true : Bool), x)) (a :: as)
        simpa using this
      rw [drainLoop_of_inactive _ _ _ _ hin] at h
      injection h with h
      injection h with h1 h2
      exact ⟨h1.symm, by simp [← h2]⟩

theorem mainLoop_collect (upNext : S → Option α × S) :
    ∀ (fuel : ℕ) (up up1 : S) (accs : List (List α))
      (ss1 : List (SplitS (Bool × List α))),
      accs ≠ [] →
      mainLoop (collectConsumer α) upNext fuel up
          (accs.map fun a => SplitS.active (false, a)) = some (up1, ss1) →
      ∃ vs, Emits upNext up vs up1 ∧
        ss1 = accs.map fun a => SplitS.inactive (true, a ++ vs) := by
  intro fuel
  induction fuel with
  | zero => intro up up1 accs ss1 _ h; simp [mainLoop] at h
  | succ fuel ih =>
    intro up up1 accs ss1 hne h
    match accs, hne with
    | a :: as, _ =>
      rw [mainLoop] at h
      simp only [anyActive, List.map_cons, List.any_cons, isActive, Bool.true_or,
        if_true] at h
      split at h
      · rename_i v upn hup
        have hd := deliverAll_collect (α := α) v (a :: as)
        simp only [List.map_cons] at hd
        rw [hd] at h
        rw [show (SplitS.active ((false : Bool), a ++ [v]) ::
              ((as.map fun x => x ++ [v]).map fun x => SplitS.active (false, x))) =
            ((a :: as).map fun x => x ++ [v]).map fun x => SplitS.active (false, x)
          from by simp] at h
        obtain ⟨vs, hemits, hss⟩ :=
          ih upn up1 ((a :: as).map fun x => x ++ [v]) ss1 (by simp) h
        refine ⟨v :: vs, Emits.cons hup hemits, ?_⟩
        rw [hss]
        simp [List.map_map, Function.comp]
      · rename_i upn hup
        obtain ⟨hup1, hss⟩ := drainLoop_collect fuel upn up1 a as ss1 (by
          simpa using h)
        refine ⟨[], ?_, by simp [hss]⟩
        rw [hup1]
        exact Emits.nil hup

theorem drainLoop_all_inactive (M : ConsumerM α C) :
    ∀ (fuel : ℕ) (up up1 : S) (ss ss1 : List (SplitS C)),
      drainLoop M fuel up ss = some (up1, ss1) → anyActive ss1 = false := by
  intro fuel
  induction fuel with
  | zero => intro up up1 ss ss1 h; simp [drainLoop] at h
  | succ fuel ih =>
    intro up up1 ss ss1 h
    rw [drainLoop] at h
    by_cases ha : anyActive ss
    · rw [if_pos ha] at h
      exact ih up up1 _ ss1 h
    · rw [if_neg ha] at h
      injection h with h
      injection h with _ h2
      rw [← h2]
      exact Bool.of_not_eq_true ha

theorem mainLoop_all_inactive (M : ConsumerM α C) (upNext : S → Option α × S) :
    ∀ (fuel : ℕ) (up up1 : S) (ss ss1 : List (SplitS C)),
      mainLoop M upNext fuel up ss = some (up1, ss1) → anyActive ss1 = false := by
  intro fuel
  induction fuel with
  | zero => intro up up1 ss ss1 h; simp [mainLoop] at h
  | succ fuel ih =>
    intro up up1 ss ss1 h
    rw [mainLoop] at h
    by_cases ha : anyActive ss
    · rw [if_pos ha] at h
      rcases hup : upNext up with ⟨r, upn⟩
      rw [hup] at h
      match r with
      | some v => exact ih upn up1 _ ss1 h
      | none => exact drainLoop_all_inactive M fuel upn up1 ss ss1 h
    · rw [if_neg ha] at h
      injection h with h
      injection h with _ h2
      rw [← h2]
      exact Bool.of_not_eq_true ha

theorem all_inactive_mem {ss : List (SplitS C)} (h : anyActive ss = false)
    {sp : SplitS C} (hmem : sp ∈ ss) : ∃ c, sp = SplitS.inactive c := by
  match sp with
  | .inactive c => exact ⟨c, rfl⟩
  | .active c =>
    exfalso
    have := (List.any_eq_false.mp h) _ hmem
    simp [isActive] at this

/- ===================================================================
   Claim theorems.
   =================================================================== -/

theorem nextN_listProducer {β : Type} (vs : List β) (n : ℕ) :
    nextN (listProducer β) n (.opened vs) =
      some ((vs.take n).map some ++ List.replicate (n - vs.length) none,
        if n ≤ vs.length then GenState.opened (vs.drop n) else .closed) := by
  induction n generalizing vs with
  | zero => simp [nextN]
  | succ n ih =>
    match vs with
    | [] =>
      simp [nextN, Next, listProducer, nextN_closed, List.replicate_succ]
    | v :: rest =>
      have ih1 := ih rest
      simp only [nextN, Next, listProducer] at ih1 ⊢
      rw [ih1]
      simp [Nat.succ_sub_succ, Nat.succ_le_succ_iff]

/-- Claim C1: a Generator built by `NewGenerator` from a producer routine
yields via successive `Next` calls, in order, exactly the values the routine
supplies through successive non-nil `EmitPtr` results and nothing more
(for the routine emitting the list `vs`, `n` reads return the first `n`
values of `vs` followed by false replies only); in particular the Fibonacci
producer, read for 7 values then closed, yields `[0,1,1,2,3,5,8]`, the close
hands it the stop signal, and afterwards it is not resumable (`Next` keeps
returning false). -/
theorem claim_C1 :
    (∀ (β : Type) (vs : List β) (n : ℕ),
        nextN (listProducer β) n (.opened vs) =
          some ((vs.take n).map some ++ List.replicate (n - vs.length) none,
            if n ≤ vs.length then GenState.opened (vs.drop n) else .closed))
  ∧ NewGenerator (.emits ((0 : Int), (1 : Int))) = some (.opened (0, 1))
  ∧ nextN fibProducer 7 (.opened (0, 1)) =
      some ([some 0, some 1, some 1, some 2, some 3, some 5, some 8],
        .opened (13, 21))
  ∧ Close fibProducer (.opened (13, 21)) = some .closed
  ∧ nextN fibProducer 3 .closed = some ([none, none, none], .closed) :=
  ⟨fun _ vs n => nextN_listProducer vs n, rfl, rfl, rfl, rfl⟩

/-- Claim C5: on a Generator, `Close` is idempotent and `Next` returns false
on every call made strictly after closure or natural exhaustion: whenever a
`Next` call returns false the generator is in the closed state, and on a
closed generator both `Next` (returning false) and `Close` are safe,
side-effect-free no-ops. -/
theorem claim_C5 :
    (∀ (β Q : Type) (M : ProducerM β Q) (s s1 : GenState Q),
        Next M s = some (none, s1) → s1 = .closed)
  ∧ (∀ (β Q : Type) (M : ProducerM β Q), Next M .closed = some (none, .closed))
  ∧ (∀ (β Q : Type) (M : ProducerM β Q), Close M .closed = some .closed) := by
  refine ⟨?_, fun _ _ _ => rfl, fun _ _ _ => rfl⟩
  intro β Q M s s1 h
  match s with
  | .closed =>
    simp only [Next, Option.some.injEq, Prod.mk.injEq, true_and] at h
    exact h.symm
  | .opened p =>
    simp only [Next] at h
    split at h <;> simp_all

theorem claim_C5_witness :
    Next (listProducer Int) (.opened []) = some (none, .closed) ∧
      GenState.closed (P := List Int) = .closed :=
  ⟨rfl, claim_C5.1 Int (List Int) (listProducer Int) (.opened []) .closed rfl⟩

/-- Claim C7 counterexample: the Fibonacci producer, handed the nil slot by
`Close` after partial consumption, returns promptly and never calls `EmitPtr`
again (`fibProducer.onNil` is `NilAct.ret`), yet `Close` completes
(`some .closed`) instead of blocking forever (`none`) — refuting the claim's
"if the producer never calls EmitPtr again after being handed the null slot,
Close blocks forever". -/
theorem claim_C7_counterexample :
    fibProducer.onNil (1, 1) = .ret ∧
      Close fibProducer (.opened (1, 1)) = some .closed ∧
      Close fibProducer (.opened (1, 1)) ≠ none :=
  ⟨rfl, rfl, by decide⟩

/-- Claim C7 (amended): closing a Generator after partial consumption hands
the producer routine the nil slot from its pending `EmitPtr` call; a
conforming producer (one that returns promptly on nil) causes `Close` to
complete with the task finished and the generator closed, so no concurrent
task is leaked and further `Next` calls return false; the cancellation is
purely cooperative — if the producer, after being handed the nil slot,
neither returns nor calls `EmitPtr` again, `Close` blocks forever. -/
theorem claim_C7 :
    (∀ (β Q : Type) (M : ProducerM β Q) (p : Q),
        M.onNil p = .ret →
          Close M (.opened p) = some .closed ∧ Next M .closed = some (none, .closed))
  ∧ (∀ (β Q : Type) (M : ProducerM β Q) (p : Q),
        M.onNil p = .hang → Close M (.opened p) = none) := by
  constructor
  · intro β Q M p h
    exact ⟨by simp [Close, h], rfl⟩
  · intro β Q M p h
    simp [Close, h]

theorem claim_C7_witness :
    (Close fibProducer (.opened (2, 3)) = some .closed ∧
        Next fibProducer .closed = some (none, .closed)) ∧
      Close spinningProducer (.opened ()) = none :=
  ⟨claim_C7.1 Int (Int × Int) fibProducer (2, 3) rfl,
   claim_C7.2 Int Unit spinningProducer () rfl⟩

/-- Claim C8: a Generator whose producer routine returns without ever
emitting a value is immediately exhausted: `NewGenerator` already delivers it
in the closed state, so the very first `Next` call returns false and so does
every call thereafter. -/
theorem claim_C8 :
    NewGenerator (P := Unit) .returns = some .closed
  ∧ (∀ (β Q : Type) (M : ProducerM β Q) (n : ℕ),
        nextN M n .closed = some (List.replicate n none, .closed)) :=
  ⟨rfl, fun _ _ M n => nextN_closed M n⟩

/-- Claim C10: `NewGenerator` does not return until the spawned producer
routine has either made its first `EmitPtr` call or returned (it blocks
forever on a routine that reaches neither handshake); consequently, whenever
the constructor returns, the generator is open at the producer's first
`EmitPtr` call, or — for a producer that returned without emitting — already
in the closed state with its channels released. -/
theorem claim_C10 :
    (∀ (Q : Type) (st : PStart Q) (g : GenState Q),
        NewGenerator st = some g →
          (∃ p, st = .emits p ∧ g = .opened p) ∨ (st = .returns ∧ g = .closed))
  ∧ (∀ (Q : Type), NewGenerator (P := Q) .returns = some .closed) := by
  constructor
  · intro Q st g h
    match st with
    | .emits p =>
      left
      simp only [NewGenerator, Option.some.injEq] at h
      exact ⟨p, rfl, h.symm⟩
    | .returns =>
      right
      simp only [NewGenerator, Option.some.injEq] at h
      exact ⟨rfl, h.symm⟩
    | .hangs => simp [NewGenerator] at h
  · intro Q
    rfl

theorem claim_C10_witness :
    (∃ p, PStart.emits ((0 : Int), (1 : Int)) = PStart.emits p ∧
        GenState.opened ((0 : Int), (1 : Int)) = .opened p) ∨
      (PStart.emits ((0 : Int), (1 : Int)) = .returns ∧
        GenState.opened ((0 : Int), (1 : Int)) = .closed) :=
  claim_C10.1 (Int × Int) (.emits (0, 1)) (.opened (0, 1)) rfl

/-- Claim C2: `MultiConsume` consumes one upstream stream once and delivers
an order-preserving copy of each pulled element to every still-active
consumer: for any nonempty family of read-everything consumers, whenever
`MultiConsume` returns, there is one list `vs` of values — exactly those the
upstream supplied, in order, up to its exhaustion — that every consumer
received appended to its accumulator; and for upstream `[0,5)` (the stream
`Slice(Count(), 0, 5)`) with a keep-evens and a keep-odds consumer, they
receive `[0,2,4]` and `[1,3]` respectively. -/
theorem claim_C2 :
    (∀ (β S1 : Type) (upNext : S1 → Option β × S1) (fuel : ℕ) (up up1 : S1)
        (accs : List (List β)) (ss1 : List (SplitS (Bool × List β))),
        accs ≠ [] →
        MultiConsume (collectConsumer β) upNext fuel up
            (accs.map fun a => (false, a)) = some (up1, ss1) →
        ∃ vs, Emits upNext up vs up1 ∧
          ss1 = accs.map fun a => SplitS.inactive (true, a ++ vs))
  ∧ MultiConsume evenOddConsumer (sliceStream.Next count.Next) 20 (Slice Count 0 5)
        [⟨true, false, []⟩, ⟨false, false, []⟩] =
      some (⟨⟨5, 1⟩, 0, 5, 5⟩,
        [.inactive ⟨true, true, [0, 2, 4]⟩, .inactive ⟨false, true, [1, 3]⟩]) := by
  refine ⟨?_, rfl⟩
  intro β S1 upNext fuel up up1 accs ss1 hne h
  apply mainLoop_collect upNext fuel up up1 accs ss1 hne
  rw [MultiConsume] at h
  rw [show ((accs.map fun a => ((false : Bool), a)).map
        (consumerWrapper (collectConsumer β))) =
      accs.map fun a => SplitS.active (false, a) from by
    simp [consumerWrapper, collectConsumer, List.map_map, Function.comp]] at h
  exact h

theorem claim_C2_witness :
    ∃ vs, Emits (sliceStream.Next count.Next) (Slice Count 0 5) vs
        (⟨⟨5, 1⟩, 0, 5, 5⟩ : sliceStream count) ∧
      ([SplitS.inactive ((true : Bool), [0, 1, 2, 3, 4])] :
          List (SplitS (Bool × List Int))) =
        [([] : List Int)].map fun a => SplitS.inactive (true, a ++ vs) :=
  claim_C2.1 Int (sliceStream count) (sliceStream.Next count.Next) 20
    (Slice Count 0 5) ⟨⟨5, 1⟩, 0, 5, 5⟩ [[]]
    [.inactive (true, [0, 1, 2, 3, 4])] (by simp) rfl

/-- Claim C3: `MultiConsume` returns only after every consumer routine has
returned: each consumer task emits its completion sentinel unconditionally
right after `Consume` returns, independent of how many values it read, and
the coordinator keeps answering still-active splits until every task has
reported completion — so whenever `MultiConsume` returns, every split is
inactive (its sentinel was received).  In particular a consumer that never
reads (`noNextConsumer`) is still correctly joined. -/
theorem claim_C3 :
    (∀ (β C1 S1 : Type) (M : ConsumerM β C1) (upNext : S1 → Option β × S1)
        (fuel : ℕ) (up up1 : S1) (cs : List C1) (ss1 : List (SplitS C1)),
        MultiConsume M upNext fuel up cs = some (up1, ss1) →
        ∀ sp ∈ ss1, ∃ c, sp = SplitS.inactive c)
  ∧ MultiConsume c4Machine count.Next 5 (CountFrom 7 1) [C4C.nn] =
      some (CountFrom 7 1, [.inactive .nn]) := by
  refine ⟨?_, rfl⟩
  intro β C1 S1 M upNext fuel up up1 cs ss1 h sp hmem
  exact all_inactive_mem (mainLoop_all_inactive M upNext fuel up up1 _ ss1 h) hmem

theorem claim_C3_witness :
    ∃ c, SplitS.inactive C4C.nn = SplitS.inactive c :=
  claim_C3.1 Int C4C count c4Machine count.Next 5 (CountFrom 7 1) (CountFrom 7 1)
    [C4C.nn] [.inactive .nn] rfl (SplitS.inactive .nn) (by simp)

/-- Claim C4: `MultiConsume` advances the upstream stream exactly as far as
the last still-active consumer needs and no further: with zero consumers the
upstream is never pulled and is returned exactly as given; and with one
immediate-return consumer plus two consumers each bounded (via
`Slice(s, 0, 5)`) to the first 5 elements of the infinite counting upstream
`Count()`, `MultiConsume` terminates with the upstream positioned exactly at
index 5 (state `⟨5, 1⟩`), the immediate-return consumer joined. -/
theorem claim_C4 :
    (∀ (β C1 S1 : Type) (M : ConsumerM β C1) (upNext : S1 → Option β × S1)
        (fuel : ℕ) (up : S1),
        MultiConsume M upNext (fuel + 1) up [] = some (up, []))
  ∧ MultiConsume c4Machine count.Next 10 Count
        [C4C.nn, C4C.bounded true 0 false [], C4C.bounded false 0 false []] =
      some (⟨5, 1⟩,
        [.inactive .nn,
         .inactive (.bounded true 5 false [0, 2, 4]),
         .inactive (.bounded false 5 false [1, 3])]) := by
  refine ⟨?_, rfl⟩
  intro β C1 S1 M upNext fuel up
  simp [MultiConsume, mainLoop, anyActive]

/-- Claim C6: a consumer that keeps calling `Next` on its split stream after
reaching the end — here two `readPastEndConsumer`s, each issuing 10 further
`Next` calls past exhaustion of the upstream `Slice(Count(), 0, 5)` — gets
false on every one of those extra calls immediately (each recorded reply in
`extraReplies` is `false`), and `MultiConsume` neither hangs nor blocks the
coordinator or the other consumer: it returns with both consumers joined. -/
theorem claim_C6 :
    MultiConsume readPastEndConsumer (sliceStream.Next count.Next) 40
        (Slice Count 0 5) [⟨false, 0, []⟩, ⟨false, 0, []⟩] =
      some (⟨⟨5, 1⟩, 0, 5, 5⟩,
        [.inactive ⟨true, 10, List.replicate 10 false⟩,
         .inactive ⟨true, 10, List.replicate 10 false⟩]) := by
  rfl

end Functional
